import Mathlib

/-!
Shallow embedding of the two notebooks of the repository
(`Autoencoder for Text in TensorFlow.ipynb` and `CIFAR_10-Keras.ipynb`),
together with proofs of the specification claims about them.
-/

namespace AE

/-- The toy corpus of the autoencoder notebook: the word list obtained by
splitting `"the quick brown fox jumped over the lazy dog from the quick tall fox"`. -/
def corpusWords : List String :=
  ["the", "quick", "brown", "fox", "jumped", "over", "the", "lazy", "dog", "from",
   "the", "quick", "tall", "fox"]

/-- Distinct words of a list in order of first occurrence; this models the
iteration order of the items of `Counter(words)`. -/
def firstOccs : List String → List String
  | [] => []
  | w :: ws => w :: (firstOccs ws).filter (fun x => x != w)

/-- The items of `Counter(words)`: each distinct word paired with its number of
occurrences, in first-occurrence order. -/
def counterItems (words : List String) : List (String × Int) :=
  (firstOccs words).map (fun w => (w, (words.count w : Int)))

/-- Stable insertion step of a descending-by-count insertion sort.  The element
being inserted originates earlier in the list than everything already sorted,
so on equal counts it is placed first. -/
def insertDesc (x : String × Int) : List (String × Int) → List (String × Int)
  | [] => [x]
  | y :: ys => if y.2 ≤ x.2 then x :: y :: ys else y :: insertDesc x ys

/-- Stable sort by descending count, modelling the order produced by
`Counter.most_common` (which is documented to be equivalent to a stable
descending sort of the counter items by count). -/
def sortByCountDesc : List (String × Int) → List (String × Int)
  | [] => []
  | x :: xs => insertDesc x (sortByCountDesc xs)

/-- Model of `Counter(words).most_common(k)`: the `k` highest-count
`(word, count)` pairs, highest first. -/
def most_common (words : List String) (k : Nat) : List (String × Int) :=
  (sortByCountDesc (counterItems words)).take k

/-- Python dict assignment `d[k] = v` on a dict represented as an association
list in insertion order: overwrite in place when the key is present, append
otherwise. -/
def dictInsert {α β : Type} [DecidableEq α] (d : List (α × β)) (k : α) (v : β) :
    List (α × β) :=
  if d.any (fun p => decide (p.1 = k)) then
    d.map (fun p => if p.1 = k then (k, v) else p)
  else d ++ [(k, v)]

/-- `build_vocab(words, vocab_size)` from the autoencoder notebook:
`count = [('UNK', -1)] + Counter(words).most_common(vocab_size - 1)`, then the
loop `for word, _ in count: dictionary[word] = index; index += 1`, and finally
`index_dictionary = dict(zip(dictionary.values(), dictionary.keys()))`. -/
def build_vocab (words : List String) (vocab_size : Nat) :
    List (String × Nat) × List (Nat × String) :=
  let count : List (String × Int) := ("UNK", -1) :: most_common words (vocab_size - 1)
  let dictionary : List (String × Nat) :=
    (count.foldl (fun st p => (dictInsert st.1 p.1 st.2, st.2 + 1)) ([], 0)).1
  let index_dictionary : List (Nat × String) :=
    (dictionary.map (fun p => (p.2, p.1))).foldl (fun d q => dictInsert d q.1 q.2) []
  (dictionary, index_dictionary)

/-- `vocabulary, reverse_vocabulary = build_vocab(corpus, 100)` (word-to-index part). -/
def vocabulary : List (String × Nat) := (build_vocab corpusWords 100).1

/-- `vocabulary, reverse_vocabulary = build_vocab(corpus, 100)` (index-to-word part). -/
def reverse_vocabulary : List (Nat × String) := (build_vocab corpusWords 100).2

/-- `vocabulary_size = len(vocabulary)`. -/
def vocabulary_size : Nat := vocabulary.length

/-- `index_words_in_corpus(corpus)`: `[vocabulary[token] if token in vocabulary
else 0 for token in corpus]`. -/
def index_words_in_corpus (corpus : List String) : List Nat :=
  corpus.map fun token =>
    match List.lookup token vocabulary with
    | some i => i
    | none => 0

/-- `corpus = index_words_in_corpus(corpus)`: the corpus as word indices. -/
def corpusIdx : List Nat := index_words_in_corpus corpusWords

/-- `one_hot_encode(index)`: `row = np.zeros(vocabulary_size); row[index] = 1`.
`List.set` mirrors the in-bounds numpy assignment (every call in the notebook
is in bounds). -/
def one_hot_encode (index : Nat) : List Nat :=
  (List.replicate vocabulary_size 0).set index 1

/-- `data = np.array([one_hot_encode(i) for i in corpus])`. -/
def data : List (List Nat) := corpusIdx.map one_hot_encode

/-- Model of Python's `random.randint(a, b)` (used as `randint(1, data.shape[0])`
in the notebook): the set of possible return values, inclusive of BOTH
endpoints. -/
def randintRange (a b : Nat) : Finset Nat := Finset.Icc a b

/-- Expression nodes of the TensorFlow graph the notebook builds by hand
(placeholders, variables with their fixed shapes, `tf.matmul`, `tf.add`,
`tf.nn.relu`, `tf.nn.sigmoid`). -/
inductive TFNode : Type
  | placeholder (name : String) (cols : Nat)
  | var (name : String) (rows cols : Nat)
  | matmul (a b : TFNode)
  | add (a b : TFNode)
  | relu (a : TFNode)
  | sigmoid (a : TFNode)
deriving DecidableEq

/-- `X = tf.placeholder(tf.float32, shape=(None, vocabulary_size))`. -/
def X : TFNode := .placeholder "X" vocabulary_size

/-- `w1 = tf.Variable(tf.random_normal(shape=(vocabulary_size, 1000), ...), name='weights1')`. -/
def w1 : TFNode := .var "weights1" vocabulary_size 1000

/-- `b1 = tf.Variable(tf.zeros([1, 1000]), name="bias1")`. -/
def b1 : TFNode := .var "bias1" 1 1000

/-- `layer1 = tf.nn.relu(tf.add(tf.matmul(X, w1), b1))`. -/
def layer1 : TFNode := .relu (.add (.matmul X w1) b1)

/-- `w2 = tf.Variable(tf.random_normal(shape=(1000, 250), ...), name='weights2')`. -/
def w2 : TFNode := .var "weights2" 1000 250

/-- `b2 = tf.Variable(tf.zeros([1, 250]), name="bias2")`. -/
def b2 : TFNode := .var "bias2" 1 250

/-- `layer2 = tf.nn.relu(tf.add(tf.matmul(layer1, w2), b2))`. -/
def layer2 : TFNode := .relu (.add (.matmul layer1 w2) b2)

/-- `w = tf.Variable(tf.random_normal(shape=(250, 50), ...), name='weights')`. -/
def w : TFNode := .var "weights" 250 50

/-- `b = tf.Variable(tf.zeros([1, 50]), name="bias")`. -/
def b : TFNode := .var "bias" 1 50

/-- `code = tf.nn.relu(tf.add(tf.matmul(layer2, w), b))`. -/
def code : TFNode := .relu (.add (.matmul layer2 w) b)

/-- `w3 = tf.Variable(tf.random_normal(shape=(50, 250), ...), name='weights3')`. -/
def w3 : TFNode := .var "weights3" 50 250

/-- `b3 = tf.Variable(tf.zeros([1, 250]), name="bias3")`. -/
def b3 : TFNode := .var "bias3" 1 250

/-- `layer3 = tf.nn.relu(tf.add(tf.matmul(code, w3), b3))`. -/
def layer3 : TFNode := .relu (.add (.matmul code w3) b3)

/-- `w4 = tf.Variable(tf.random_normal(shape=(250, 1000), ...), name='weights4')`. -/
def w4 : TFNode := .var "weights4" 250 1000

/-- `b4 = tf.Variable(tf.zeros([1, 1000]), name="bias4")`. -/
def b4 : TFNode := .var "bias4" 1 1000

/-- `layer4 = tf.nn.relu(tf.add(tf.matmul(layer3, w4), b4))`. -/
def layer4 : TFNode := .relu (.add (.matmul layer3 w4) b4)

/-- `w5 = tf.Variable(tf.random_normal(shape=(1000, vocabulary_size), ...), name='weights5')`. -/
def w5 : TFNode := .var "weights5" 1000 vocabulary_size

/-- `b5 = tf.Variable(tf.zeros([1, vocabulary_size]), name="bias5")`. -/
def b5 : TFNode := .var "bias5" 1 vocabulary_size

/-- `decoder = tf.nn.sigmoid(tf.add(tf.matmul(layer4, w5), b5))`. -/
def decoder : TFNode := .sigmoid (.add (.matmul layer4 w5) b5)

/-- Number of matrix-multiply-plus-bias applications in a graph expression:
occurrences of the pattern `tf.add(tf.matmul(_, _), _)`. -/
def countAffine : TFNode → Nat
  | .add (.matmul a m) c => countAffine a + countAffine m + countAffine c + 1
  | .add a c => countAffine a + countAffine c
  | .matmul a c => countAffine a + countAffine c
  | .relu a => countAffine a
  | .sigmoid a => countAffine a
  | .placeholder _ _ => 0
  | .var _ _ _ => 0

/-- Number of activation applications (`tf.nn.relu` or `tf.nn.sigmoid`) in a
graph expression. -/
def countActivations : TFNode → Nat
  | .add a c => countActivations a + countActivations c
  | .matmul a c => countActivations a + countActivations c
  | .relu a => countActivations a + 1
  | .sigmoid a => countActivations a + 1
  | .placeholder _ _ => 0
  | .var _ _ _ => 0

/-- Total number of scalar entries of a matrix represented as a list of rows. -/
def numEntries (A : List (List Rat)) : Nat := (A.map List.length).sum

/-- Element-wise matrix subtraction, modelling `X - decoder` on same-shaped
tensors. -/
def matSub (A B : List (List Rat)) : List (List Rat) :=
  List.zipWith (List.zipWith (fun x y => x - y)) A B

/-- Element-wise square, modelling `tf.pow(_, 2)`. -/
def matSqr (A : List (List Rat)) : List (List Rat) :=
  A.map (List.map (fun x => x * x))

/-- `tf.reduce_mean`: the sum of all entries divided by the number of entries. -/
def reduce_mean (A : List (List Rat)) : Rat :=
  (A.map List.sum).sum / (numEntries A : Rat)

/-- `loss = tf.reduce_mean(tf.pow(X - decoder, 2))`, as a function of the value
fed for the placeholder `X` and the value produced by `decoder`. -/
def loss (Xv Dv : List (List Rat)) : Rat := reduce_mean (matSqr (matSub Xv Dv))

/-- `LEARNING_RATE = 0.01`. -/
def LEARNING_RATE : Rat := 1 / 100

/-- `NUM_TRAIN_STEPS = 1000`. -/
def NUM_TRAIN_STEPS : Nat := 1000

/-- `SKIP_STEP = 10` (how many steps to skip before reporting the loss). -/
def SKIP_STEP : Nat := 10

/-- Observable effects of the training-session cell: an optimizer step
(`sess.run([optimizer, loss], ...)`), a printed loss report
(`print("EPOCH {}/{}, LOSS {}".format(i, NUM_TRAIN_STEPS, loss_val))`), or a
file write (`np.save`; expressible so that its absence is a statement about the
cell, not about the effect type). -/
inductive SessEffect : Type
  | runStep (i : Nat)
  | lossReport (step total : Nat) (lossVal : Rat)
  | save (file : String)
deriving DecidableEq

/-- The effect trace of the training-session cell: for each
`i in range(NUM_TRAIN_STEPS)` one optimizer step, followed by a loss report
when `i % SKIP_STEP == 0`.  The `np.save(outfile, test_data_compressed)` line
of the cell is commented out in the notebook, so the trace contains no `save`
effect.  `lossOf i` abstracts the loss value returned by the session at step
`i`. -/
def trainSessionTrace (lossOf : Nat → Rat) : List SessEffect :=
  (List.range NUM_TRAIN_STEPS).flatMap fun i =>
    SessEffect.runStep i ::
      (if i % SKIP_STEP = 0 then [SessEffect.lossReport i NUM_TRAIN_STEPS (lossOf i)] else [])

/-- Whether an effect is an optimizer step. -/
def SessEffect.isRun : SessEffect → Bool
  | .runStep _ => true
  | _ => false

/-- Whether an effect is a printed loss report. -/
def SessEffect.isReport : SessEffect → Bool
  | .lossReport _ _ _ => true
  | _ => false

/-- Whether an effect writes a file. -/
def SessEffect.isSave : SessEffect → Bool
  | .save _ => true
  | _ => false

end AE

namespace CIFAR

/-- The pipeline steps performed by the code cells of the CIFAR-10 notebook. -/
inductive Step : Type
  | loadData
  | setSeed
  | normalize
  | oneHotLabels
  | buildModel
  | compileModel
  | fit
  | evaluate
  | printAccuracy
deriving DecidableEq

/-- The CIFAR-10 notebook's code cells as the sequence of pipeline steps they
perform, in cell order: the plotting cell loads the data, then the seed is set,
the data is loaded and preprocessed, and each of the two models is built,
compiled, fitted, evaluated and its accuracy printed (the second model re-seeds
before fitting). -/
def script : List Step :=
  [.loadData, .setSeed, .loadData, .normalize, .oneHotLabels,
   .buildModel, .compileModel, .fit, .evaluate, .printAccuracy,
   .buildModel, .compileModel, .setSeed, .fit, .evaluate, .printAccuracy]

/-- The value printed by `print("Accuracy: %.2f%%" % (scores[1]*100))`, as a
function of `scores = model.evaluate(X_test, y_test, verbose=0)` (a pair of
loss and accuracy). -/
def accuracyPrint (scores : Rat × Rat) : Rat := scores.2 * 100

/-- The SGD optimizer object constructed before each compile:
`SGD(lr=lrate, momentum=0.9, decay=decay, nesterov=False)`. -/
structure SGDConfig : Type where
  lr : Rat
  momentum : Rat
  decay : Rat
  nesterov : Bool
deriving DecidableEq

/-- The arguments actually passed to `model.compile`. -/
structure CompileConfig : Type where
  lossName : String
  optimizer : String
  metrics : List String
deriving DecidableEq

/-- `epochs = 10`. -/
def epochs : Nat := 10

/-- `lrate = 0.01`. -/
def lrate : Rat := 1 / 100

/-- `decay = lrate/epochs`. -/
def decay : Rat := lrate / (epochs : Rat)

/-- `sgd = SGD(lr=lrate, momentum=0.9, decay=decay, nesterov=False)` (built in
both compile cells). -/
def sgd : SGDConfig := ⟨lrate, 9 / 10, decay, false⟩

/-- The compile call of the simple-model cell, as a function of the SGD object
the cell just constructed: `model.compile(loss='categorical_crossentropy',
optimizer='adagrad', metrics=['categorical_accuracy'])`.  The argument is not
mentioned by the call. -/
def compileSimple (s : SGDConfig) : CompileConfig :=
  ⟨"categorical_crossentropy", "adagrad", ["categorical_accuracy"]⟩

/-- The compile call of the larger-model cell, textually identical to the
simple one: `model.compile(loss='categorical_crossentropy',
optimizer='adagrad', metrics=['categorical_accuracy'])`. -/
def compileLarger (s : SGDConfig) : CompileConfig :=
  ⟨"categorical_crossentropy", "adagrad", ["categorical_accuracy"]⟩

end CIFAR

namespace AE

lemma mem_firstOccs {x : String} : ∀ {l : List String}, x ∈ firstOccs l ↔ x ∈ l
  | [] => by simp [firstOccs]
  | w :: ws => by
    by_cases hx : x = w
    · subst hx; simp [firstOccs]
    · simp [firstOccs, hx, List.mem_filter, mem_firstOccs (l := ws)]

lemma nodup_firstOccs : ∀ (l : List String), (firstOccs l).Nodup
  | [] => by simp [firstOccs]
  | w :: ws => by
    rw [firstOccs]
    refine List.Nodup.cons ?_ ((nodup_firstOccs ws).filter _)
    intro hmem
    have := List.of_mem_filter hmem
    simp at this

lemma firstOccs_length_dedup (l : List String) :
    (firstOccs l).length = l.dedup.length := by
  have h1 : (firstOccs l).toFinset = l.toFinset := by
    ext x; simp [List.mem_toFinset, mem_firstOccs]
  calc (firstOccs l).length = (firstOccs l).toFinset.card :=
        (List.toFinset_card_of_nodup (nodup_firstOccs l)).symm
    _ = l.toFinset.card := by rw [h1]
    _ = l.dedup.length := List.card_toFinset l

lemma insertDesc_perm (x : String × Int) :
    ∀ (l : List (String × Int)), (insertDesc x l).Perm (x :: l)
  | [] => by simp [insertDesc]
  | y :: ys => by
    rw [insertDesc]
    by_cases h : y.2 ≤ x.2
    · rw [if_pos h]
    · rw [if_neg h]
      exact ((insertDesc_perm x ys).cons y).trans (List.Perm.swap x y ys)

lemma sortByCountDesc_perm : ∀ (l : List (String × Int)), (sortByCountDesc l).Perm l
  | [] => by simp [sortByCountDesc]
  | x :: xs => by
    rw [sortByCountDesc]
    exact (insertDesc_perm x (sortByCountDesc xs)).trans
      ((sortByCountDesc_perm xs).cons x)

lemma dictInsert_fresh {α β : Type} [DecidableEq α] (d : List (α × β)) (k : α) (v : β)
    (h : k ∉ d.map Prod.fst) : dictInsert d k v = d ++ [(k, v)] := by
  have hcond : ¬ (d.any fun p => decide (p.1 = k)) = true := by
    simp only [List.any_eq_true, decide_eq_true_eq]
    rintro ⟨p, hp, hpk⟩
    exact h (hpk ▸ List.mem_map_of_mem Prod.fst hp)
  rw [dictInsert, if_neg hcond]

lemma foldl_dictInsert_enum {α γ : Type} [DecidableEq α] :
    ∀ (l : List (α × γ)) (acc : List (α × Nat)) (i : Nat),
      (acc.map Prod.fst ++ l.map Prod.fst).Nodup →
      (l.foldl (fun st p => (dictInsert st.1 p.1 st.2, st.2 + 1)) (acc, i)).1
        = acc ++ (l.map Prod.fst).zip (List.range' i l.length)
  | [], acc, i, _ => by simp
  | p :: ps, acc, i, h => by
    have hfresh : p.1 ∉ acc.map Prod.fst := by
      rw [List.nodup_append] at h
      intro hmem
      exact h.2.2 hmem (by simp)
    have h2 : ((acc ++ [(p.1, i)]).map Prod.fst ++ ps.map Prod.fst).Nodup := by
      simpa [List.append_assoc] using h
    simp only [List.foldl_cons]
    rw [dictInsert_fresh _ _ _ hfresh,
      foldl_dictInsert_enum ps (acc ++ [(p.1, i)]) (i + 1) h2]
    simp [List.range'_succ, List.append_assoc]

lemma foldl_dictInsert_pairs {α β : Type} [DecidableEq α] :
    ∀ (l acc : List (α × β)),
      (acc.map Prod.fst ++ l.map Prod.fst).Nodup →
      l.foldl (fun d q => dictInsert d q.1 q.2) acc = acc ++ l
  | [], acc, _ => by simp
  | q :: qs, acc, h => by
    have hfresh : q.1 ∉ acc.map Prod.fst := by
      rw [List.nodup_append] at h
      intro hmem
      exact h.2.2 hmem (by simp)
    have h2 : ((acc ++ [q]).map Prod.fst ++ qs.map Prod.fst).Nodup := by
      simpa [List.append_assoc] using h
    simp only [List.foldl_cons]
    rw [dictInsert_fresh _ _ _ hfresh]
    rw [show ((q.1, q.2) : α × β) = q from rfl]
    rw [foldl_dictInsert_pairs qs (acc ++ [q]) h2]
    simp

lemma lookup_mem {α β : Type} [BEq α] [LawfulBEq α] {l : List (α × β)} {a : α} {b : β}
    (h : l.lookup a = some b) : (a, b) ∈ l := by
  obtain ⟨l₁, l₂, rfl, -⟩ := List.lookup_eq_some_iff.mp h
  simp

lemma mem_lookup {α β : Type} [BEq α] [LawfulBEq α] :
    ∀ {l : List (α × β)} {a : α} {b : β},
      (l.map Prod.fst).Nodup → (a, b) ∈ l → l.lookup a = some b
  | [], a, b, _, h => by simp at h
  | (k, v) :: es, a, b, hnd, h => by
    rcases List.mem_cons.mp h with heq | hmem
    · cases heq
      simp
    · have hk : k ∉ es.map Prod.fst := (List.nodup_cons.mp (by simpa using hnd)).1
      have hak : a ≠ k := by
        rintro rfl
        exact hk (List.mem_map_of_mem Prod.fst hmem)
      rw [List.lookup_cons]
      have : (a == k) = false := beq_false_of_ne hak
      rw [this]
      exact mem_lookup (by simpa using (List.nodup_cons.mp (by simpa using hnd)).2) hmem

lemma most_common_keys_sublist (words : List String) (k : Nat) :
    ((most_common words k).map Prod.fst).Sublist
      ((sortByCountDesc (counterItems words)).map Prod.fst) := by
  rw [most_common, List.map_take]
  exact List.take_sublist _ _

lemma sorted_keys_perm (words : List String) :
    ((sortByCountDesc (counterItems words)).map Prod.fst).Perm (firstOccs words) := by
  have h := (sortByCountDesc_perm (counterItems words)).map Prod.fst
  simpa [counterItems, List.map_map, Function.comp_def] using h

lemma most_common_keys_nodup (words : List String) (k : Nat) :
    ((most_common words k).map Prod.fst).Nodup :=
  List.Nodup.sublist (most_common_keys_sublist words k)
    ((sorted_keys_perm words).nodup_iff.mpr (nodup_firstOccs words))

lemma most_common_keys_mem {words : List String} {k : Nat} {x : String}
    (h : x ∈ (most_common words k).map Prod.fst) : x ∈ words :=
  mem_firstOccs.mp
    ((sorted_keys_perm words).mem_iff.mp ((most_common_keys_sublist words k).subset h))

lemma most_common_length (words : List String) (k : Nat) :
    (most_common words k).length = min k words.dedup.length := by
  rw [most_common, List.length_take]
  congr 1
  rw [(sortByCountDesc_perm (counterItems words)).length_eq, counterItems,
    List.length_map, firstOccs_length_dedup]

lemma build_vocab_struct (words : List String) (vocab_size : Nat)
    (hUNK : "UNK" ∉ words) :
    (build_vocab words vocab_size).1 =
      ("UNK" :: (most_common words (vocab_size - 1)).map Prod.fst).zip
        (List.range' 0 ((most_common words (vocab_size - 1)).length + 1)) ∧
    (build_vocab words vocab_size).2 =
      (List.range' 0 ((most_common words (vocab_size - 1)).length + 1)).zip
        ("UNK" :: (most_common words (vocab_size - 1)).map Prod.fst) := by
  have hkeys : ("UNK" :: (most_common words (vocab_size - 1)).map Prod.fst).Nodup := by
    refine List.Nodup.cons ?_ (most_common_keys_nodup words _)
    intro hm
    exact hUNK (most_common_keys_mem hm)
  have hd : (build_vocab words vocab_size).1 =
      ("UNK" :: (most_common words (vocab_size - 1)).map Prod.fst).zip
        (List.range' 0 ((most_common words (vocab_size - 1)).length + 1)) := by
    show ((("UNK", (-1 : Int)) :: most_common words (vocab_size - 1)).foldl
        (fun st p => (dictInsert st.1 p.1 st.2, st.2 + 1)) ([], 0)).1 = _
    rw [foldl_dictInsert_enum (("UNK", (-1 : Int)) :: most_common words (vocab_size - 1))
      [] 0 (by simpa using hkeys)]
    simp
  have hrd : (build_vocab words vocab_size).2 =
      ((build_vocab words vocab_size).1.map (fun p => (p.2, p.1))).foldl
        (fun d q => dictInsert d q.1 q.2) [] := rfl
  refine ⟨hd, ?_⟩
  rw [hrd, hd]
  have hswap : ((("UNK" :: (most_common words (vocab_size - 1)).map Prod.fst).zip
      (List.range' 0 ((most_common words (vocab_size - 1)).length + 1))).map
        (fun p => (p.2, p.1)))
      = (List.range' 0 ((most_common words (vocab_size - 1)).length + 1)).zip
        ("UNK" :: (most_common words (vocab_size - 1)).map Prod.fst) := by
    rw [show (fun p : String × Nat => (p.2, p.1)) = Prod.swap from rfl]
    exact List.zip_swap _ _
  rw [hswap]
  rw [foldl_dictInsert_pairs _ [] ?_]
  · simp
  · have hlen : (List.range' 0 ((most_common words (vocab_size - 1)).length + 1)).length ≤
        ("UNK" :: (most_common words (vocab_size - 1)).map Prod.fst).length := by
      simp
    rw [List.map_nil, List.nil_append, List.map_fst_zip _ _ hlen]
    exact List.nodup_range' 0 _

lemma sum_sq_nonneg (l : List Rat) : 0 ≤ (l.map fun x => x * x).sum := by
  induction l with
  | nil => simp
  | cons a l ih =>
    simp only [List.map_cons, List.sum_cons]
    exact add_nonneg (mul_self_nonneg a) ih

lemma sum_sq_eq_zero (l : List Rat) :
    (l.map fun x => x * x).sum = 0 ↔ ∀ x ∈ l, x = 0 := by
  induction l with
  | nil => simp
  | cons a l ih =>
    simp only [List.map_cons, List.sum_cons, List.mem_cons]
    constructor
    · intro h
      have h1 : 0 ≤ a * a := mul_self_nonneg a
      have h2 : 0 ≤ (l.map fun x => x * x).sum := sum_sq_nonneg l
      have ha : a * a = 0 := le_antisymm (by linarith) h1
      have hrest := ih.mp (le_antisymm (by linarith) h2)
      intro x hx
      rcases hx with rfl | hx
      · exact mul_self_eq_zero.mp ha
      · exact hrest x hx
    · intro h
      have ha : a = 0 := h a (Or.inl rfl)
      have hl : ∀ x ∈ l, x = 0 := fun x hx => h x (Or.inr hx)
      rw [ih.mpr hl, ha]
      ring

lemma row_eq_of_sub_zero : ∀ (r s : List Rat), r.length = s.length →
    ((∀ x ∈ List.zipWith (fun x y => x - y) r s, x = 0) ↔ r = s)
  | [], [], _ => by simp
  | [], _ :: _, h => by simp at h
  | _ :: _, [], h => by simp at h
  | x :: xs, y :: ys, h => by
    have hlen : xs.length = ys.length := by simpa using h
    simp only [List.zipWith_cons_cons, List.mem_cons, List.cons.injEq]
    constructor
    · intro hall
      have hx : x - y = 0 := hall _ (Or.inl rfl)
      refine ⟨by linarith, (row_eq_of_sub_zero xs ys hlen).mp ?_⟩
      exact fun z hz => hall z (Or.inr hz)
    · rintro ⟨rfl, rfl⟩
      intro z hz
      rcases hz with rfl | hz
      · exact sub_self x
      · exact (row_eq_of_sub_zero xs xs rfl).mpr rfl z hz

lemma matSqr_matSub_cons (a b : List Rat) (A B : List (List Rat)) :
    matSqr (matSub (a :: A) (b :: B)) =
      ((List.zipWith (fun x y => x - y) a b).map fun x => x * x) :: matSqr (matSub A B) := by
  simp [matSqr, matSub]

lemma mat_sq_sum_nonneg : ∀ (A B : List (List Rat)),
    0 ≤ ((matSqr (matSub A B)).map List.sum).sum
  | [], _ => by simp [matSqr, matSub]
  | _ :: _, [] => by simp [matSqr, matSub]
  | a :: A, b :: B => by
    rw [matSqr_matSub_cons, List.map_cons, List.sum_cons]
    exact add_nonneg (sum_sq_nonneg _) (mat_sq_sum_nonneg A B)

lemma mat_sq_sum_eq_zero : ∀ (A B : List (List Rat)),
    A.map List.length = B.map List.length →
    ((((matSqr (matSub A B)).map List.sum).sum = 0) ↔ A = B)
  | [], [], _ => by simp [matSqr, matSub]
  | [], _ :: _, h => by simp at h
  | _ :: _, [], h => by simp at h
  | a :: A, b :: B, h => by
    obtain ⟨hl, ht⟩ : a.length = b.length ∧ A.map List.length = B.map List.length := by
      simpa using h
    rw [matSqr_matSub_cons, List.map_cons, List.sum_cons]
    simp only [List.cons.injEq]
    constructor
    · intro hsum
      have h1 := sum_sq_nonneg (List.zipWith (fun x y => x - y) a b)
      have h2 := mat_sq_sum_nonneg A B
      have hrow : ((List.zipWith (fun x y => x - y) a b).map fun x => x * x).sum = 0 :=
        le_antisymm (by linarith) h1
      have htail : ((matSqr (matSub A B)).map List.sum).sum = 0 :=
        le_antisymm (by linarith) h2
      exact ⟨(row_eq_of_sub_zero a b hl).mp ((sum_sq_eq_zero _).mp hrow),
        (mat_sq_sum_eq_zero A B ht).mp htail⟩
    · rintro ⟨rfl, rfl⟩
      rw [(mat_sq_sum_eq_zero A A rfl).mpr rfl,
        (sum_sq_eq_zero _).mpr ((row_eq_of_sub_zero a a rfl).mpr rfl)]
      ring

lemma numEntries_matSqr_matSub : ∀ (A B : List (List Rat)),
    A.map List.length = B.map List.length →
    numEntries (matSqr (matSub A B)) = numEntries A
  | [], [], _ => rfl
  | [], _ :: _, h => by simp at h
  | _ :: _, [], h => by simp at h
  | a :: A, b :: B, h => by
    obtain ⟨hl, ht⟩ : a.length = b.length ∧ A.map List.length = B.map List.length := by
      simpa using h
    rw [matSqr_matSub_cons]
    have htail := numEntries_matSqr_matSub A B ht
    simp only [numEntries, List.map_cons, List.sum_cons] at htail ⊢
    rw [List.length_map, List.length_zipWith, hl, Nat.min_self, htail]

lemma filter_isRun_flatMap (lossOf : Nat → Rat) : ∀ (l : List Nat),
    ((l.flatMap fun i => SessEffect.runStep i ::
        (if i % SKIP_STEP = 0 then [SessEffect.lossReport i NUM_TRAIN_STEPS (lossOf i)]
         else [])).filter SessEffect.isRun).length = l.length
  | [] => by simp
  | i :: l => by
    simp only [List.flatMap_cons, List.filter_append]
    rw [List.length_append, filter_isRun_flatMap lossOf l]
    by_cases h : i % SKIP_STEP = 0 <;>
      simp [h, List.filter, SessEffect.isRun] <;> omega

lemma filter_isReport_flatMap (lossOf : Nat → Rat) : ∀ (l : List Nat),
    ((l.flatMap fun i => SessEffect.runStep i ::
        (if i % SKIP_STEP = 0 then [SessEffect.lossReport i NUM_TRAIN_STEPS (lossOf i)]
         else [])).filter SessEffect.isReport).length
      = (l.filter fun i => i % SKIP_STEP == 0).length
  | [] => by simp
  | i :: l => by
    simp only [List.flatMap_cons, List.filter_append]
    rw [List.length_append, filter_isReport_flatMap lossOf l]
    by_cases h : i % SKIP_STEP = 0
    · have hb : (i % SKIP_STEP == 0) = true := beq_iff_eq.mpr h
      simp [h, hb, List.filter_cons, List.filter, SessEffect.isReport]
      omega
    · have hb : (i % SKIP_STEP == 0) = false := beq_false_of_ne h
      simp [h, hb, List.filter_cons, List.filter, SessEffect.isReport]

lemma report_mem_trace (lossOf : Nat → Rat) (i t : Nat) (v : Rat) :
    SessEffect.lossReport i t v ∈ trainSessionTrace lossOf ↔
      i < NUM_TRAIN_STEPS ∧ i % SKIP_STEP = 0 ∧ t = NUM_TRAIN_STEPS ∧ v = lossOf i := by
  unfold trainSessionTrace
  rw [List.mem_flatMap]
  constructor
  · rintro ⟨a, ha, hmem⟩
    rcases List.mem_cons.mp hmem with heq | hmem2
    · exact SessEffect.noConfusion heq
    · by_cases h : a % SKIP_STEP = 0
      · rw [if_pos h] at hmem2
        have heq2 := List.mem_singleton.mp hmem2
        cases heq2
        exact ⟨List.mem_range.mp ha, h, rfl, rfl⟩
      · rw [if_neg h] at hmem2
        simp at hmem2
  · rintro ⟨hi, hmod, rfl, rfl⟩
    refine ⟨i, List.mem_range.mpr hi, ?_⟩
    rw [if_pos hmod]
    simp

lemma save_not_mem_trace (lossOf : Nat → Rat) (f : String) :
    SessEffect.save f ∉ trainSessionTrace lossOf := by
  unfold trainSessionTrace
  rw [List.mem_flatMap]
  rintro ⟨a, _, hmem⟩
  rcases List.mem_cons.mp hmem with heq | hmem2
  · exact SessEffect.noConfusion heq
  · by_cases h : a % SKIP_STEP = 0
    · rw [if_pos h] at hmem2
      exact SessEffect.noConfusion (List.mem_singleton.mp hmem2)
    · rw [if_neg h] at hmem2
      simp at hmem2

lemma index_words_getD (toks : List String) (k : Nat) (hk : k < toks.length) :
    (index_words_in_corpus toks).getD k 0 =
      match vocabulary.lookup (toks.getD k "") with
      | some i => i
      | none => 0 := by
  induction toks generalizing k with
  | nil => simp at hk
  | cons t ts ih =>
    cases k with
    | zero => simp [index_words_in_corpus]
    | succ k =>
      simp only [index_words_in_corpus, List.map_cons, List.getD_cons_succ]
      simp only [index_words_in_corpus] at ih
      exact ih k (by simpa using hk)

end AE

/-- C1: every row of the training array `data` is the one-hot encoding of the
corresponding corpus word index (a vector of length `vocabulary_size` with the
entry 1 exactly at that index and 0 elsewhere), every corpus index is in
range, and the training objective `loss` is the mean of the squared
element-wise difference between the input placeholder `X` and the `decoder`
output: on same-shaped nonempty inputs it is nonnegative and vanishes exactly
when the decoder output equals the input, so minimizing it drives the network
to reproduce its one-hot input. -/
theorem autoencoder_one_hot_objective (Xv Dv : List (List Rat))
    (hshape : Xv.map List.length = Dv.map List.length)
    (hne : 0 < AE.numEntries Xv) :
    (AE.corpusIdx.length = AE.data.length ∧
      ∀ p ∈ AE.corpusIdx.zip AE.data,
        (p.2).length = AE.vocabulary_size ∧
        ∀ j, j < (p.2).length → (p.2).getD j 0 = (if j = p.1 then 1 else 0)) ∧
    (∀ i ∈ AE.corpusIdx, i < AE.vocabulary_size) ∧
    0 ≤ AE.loss Xv Dv ∧ (AE.loss Xv Dv = 0 ↔ Xv = Dv) := by
  refine ⟨⟨by decide, by decide⟩, by decide, ?_, ?_⟩
  · unfold AE.loss AE.reduce_mean
    exact div_nonneg (AE.mat_sq_sum_nonneg Xv Dv) (Nat.cast_nonneg _)
  · have hne2 : ((AE.numEntries Xv : Rat)) ≠ 0 := Nat.cast_ne_zero.mpr hne.ne'
    unfold AE.loss AE.reduce_mean
    rw [AE.numEntries_matSqr_matSub Xv Dv hshape, div_eq_zero_iff]
    constructor
    · rintro (h | h)
      · exact (AE.mat_sq_sum_eq_zero Xv Dv hshape).mp h
      · exact absurd h hne2
    · intro h
      exact Or.inl ((AE.mat_sq_sum_eq_zero Xv Dv hshape).mpr h)

/-- C1 witness: the theorem applied at the concrete matrices `[[1]]` and
`[[0]]` shows their loss is nonzero. -/
theorem autoencoder_one_hot_objective_witness :
    AE.loss [[(1 : Rat)]] [[(0 : Rat)]] ≠ 0 := by
  intro h0
  have h := autoencoder_one_hot_objective [[(1 : Rat)]] [[(0 : Rat)]]
    (by decide) (by decide)
  have heq := h.2.2.2.mp h0
  simp at heq

/-- C2 counterexample: the path from the placeholder `X` to the `decoder`
output does NOT apply matmul-plus-bias exactly five times. -/
theorem decoder_affine_count_ne_five : AE.countAffine AE.decoder ≠ 5 := by decide

/-- C2 amended: the autoencoder's manually defined graph applies
matmul-plus-bias (each wrapped in an activation) exactly SIX times on the path
from `X` to `decoder`. -/
theorem decoder_affine_count :
    AE.countAffine AE.decoder = 6 ∧ AE.countActivations AE.decoder = 6 := by decide

/-- C4: executing the training-session cell writes no file: whatever loss
values the session returns, the cell's effect trace contains no save effect
(the sole candidate write, the `np.save` call, is commented out in the
notebook source). -/
theorem no_file_writes (lossOf : Nat → Rat) (f : String) :
    AE.SessEffect.save f ∉ AE.trainSessionTrace lossOf :=
  AE.save_not_mem_trace lossOf f

/-- C5: `index_words_in_corpus` is total on every token list: it returns a
list of the same length in which each token present in `vocabulary` maps to
its index and every other token maps to 0, which is the index of 'UNK'. -/
theorem index_words_in_corpus_total (toks : List String) :
    (AE.index_words_in_corpus toks).length = toks.length ∧
    AE.vocabulary.lookup "UNK" = some 0 ∧
    ∀ k, k < toks.length →
      (∀ i, AE.vocabulary.lookup (toks.getD k "") = some i →
        (AE.index_words_in_corpus toks).getD k 0 = i) ∧
      (AE.vocabulary.lookup (toks.getD k "") = none →
        (AE.index_words_in_corpus toks).getD k 0 = 0) := by
  refine ⟨by simp [AE.index_words_in_corpus], by decide, ?_⟩
  intro k hk
  constructor
  · intro i hi
    rw [AE.index_words_getD toks k hk, hi]
  · intro hnone
    rw [AE.index_words_getD toks k hk, hnone]

/-- C5 witness: on the token list `["fox", "zebra"]`, the vocabulary word at
position 0 maps to its index 3 and the unknown word at position 1 maps to 0. -/
theorem index_words_in_corpus_total_witness :
    (AE.index_words_in_corpus ["fox", "zebra"]).getD 0 0 = 3 ∧
    (AE.index_words_in_corpus ["fox", "zebra"]).getD 1 0 = 0 := by
  have h := index_words_in_corpus_total ["fox", "zebra"]
  exact ⟨(h.2.2 0 (by decide)).1 3 (by decide), (h.2.2 1 (by decide)).2 (by decide)⟩

/-- C6: the CIFAR-10 notebook is a linear pipeline: every data load precedes
every model construction, the first model construction precedes the first fit,
which precedes the first evaluate, which precedes the accuracy print, and the
printed accuracy is computed from the result of `model.evaluate` as
`scores[1] * 100`. -/
theorem cifar_linear_pipeline :
    (∀ i : Fin CIFAR.script.length, ∀ j : Fin CIFAR.script.length,
      CIFAR.script.get i = CIFAR.Step.loadData →
      CIFAR.script.get j = CIFAR.Step.buildModel → (i : Nat) < (j : Nat)) ∧
    CIFAR.script.indexOf CIFAR.Step.loadData
        < CIFAR.script.indexOf CIFAR.Step.buildModel ∧
    CIFAR.script.indexOf CIFAR.Step.buildModel
        < CIFAR.script.indexOf CIFAR.Step.fit ∧
    CIFAR.script.indexOf CIFAR.Step.fit
        < CIFAR.script.indexOf CIFAR.Step.evaluate ∧
    CIFAR.script.indexOf CIFAR.Step.evaluate
        < CIFAR.script.indexOf CIFAR.Step.printAccuracy ∧
    ∀ scores : Rat × Rat, CIFAR.accuracyPrint scores = scores.2 * 100 :=
  ⟨by decide, by decide, by decide, by decide, by decide, fun _ => rfl⟩

set_option maxRecDepth 8000 in
/-- C7: the training loop performs exactly `NUM_TRAIN_STEPS = 1000` optimizer
steps and prints the loss exactly at the steps `i` with
`i % SKIP_STEP = 0` (`SKIP_STEP = 10`), i.e. 100 loss reports per run, each
carrying the loss value returned by that step's session run. -/
theorem training_loop_schedule (lossOf : Nat → Rat) :
    AE.NUM_TRAIN_STEPS = 1000 ∧ AE.SKIP_STEP = 10 ∧
    ((AE.trainSessionTrace lossOf).filter AE.SessEffect.isRun).length = 1000 ∧
    ((AE.trainSessionTrace lossOf).filter AE.SessEffect.isReport).length = 100 ∧
    ∀ i t v, AE.SessEffect.lossReport i t v ∈ AE.trainSessionTrace lossOf ↔
      (i < AE.NUM_TRAIN_STEPS ∧ i % AE.SKIP_STEP = 0 ∧
        t = AE.NUM_TRAIN_STEPS ∧ v = lossOf i) := by
  refine ⟨rfl, rfl, ?_, ?_, fun i t v => AE.report_mem_trace lossOf i t v⟩
  · unfold AE.trainSessionTrace
    rw [AE.filter_isRun_flatMap lossOf (List.range AE.NUM_TRAIN_STEPS)]
    rw [List.length_range]
    rfl
  · unfold AE.trainSessionTrace
    rw [AE.filter_isReport_flatMap lossOf (List.range AE.NUM_TRAIN_STEPS)]
    decide

/-- C8: the training array has 14 rows; `randint(1, data.shape[0])` (both ends
inclusive) can return 14, which is out of bounds for `data` (indexing yields
none, the model of the IndexError), and can never return 0, so row 0 is never
sampled. -/
theorem sample_index_out_of_bounds :
    AE.data.length = 14 ∧
    14 ∈ AE.randintRange 1 AE.data.length ∧
    AE.data[14]? = none ∧
    0 ∉ AE.randintRange 1 AE.data.length := by decide

/-- C9: both CIFAR-10 models are compiled with the optimizer string 'adagrad';
the SGD object constructed immediately before each compile (learning rate
0.01, momentum 0.9, decay lrate/epochs) is not passed to `model.compile`: the
compile configuration does not depend on the constructed SGD object at all. -/
theorem adagrad_not_sgd :
    (CIFAR.compileSimple CIFAR.sgd).optimizer = "adagrad" ∧
    (CIFAR.compileLarger CIFAR.sgd).optimizer = "adagrad" ∧
    CIFAR.sgd = ⟨1 / 100, 9 / 10, (1 / 100) / 10, false⟩ ∧
    (∀ s t : CIFAR.SGDConfig, CIFAR.compileSimple s = CIFAR.compileSimple t) ∧
    (∀ s t : CIFAR.SGDConfig, CIFAR.compileLarger s = CIFAR.compileLarger t) := by
  refine ⟨rfl, rfl, ?_, fun s t => rfl, fun s t => rfl⟩
  show CIFAR.SGDConfig.mk CIFAR.lrate (9 / 10) CIFAR.decay false = _
  norm_num [CIFAR.lrate, CIFAR.decay, CIFAR.epochs]

/-- C10: for every word list not containing 'UNK' and every vocab_size ≥ 1,
`build_vocab` returns two association lists of size
`n = 1 + min (vocab_size - 1) (number of distinct words)` that are mutual
inverses under lookup, with 'UNK' mapped to index 0 and the assigned indices
exactly the consecutive integers 0 through n - 1. -/
theorem build_vocab_bijection (words : List String) (vocab_size : Nat)
    (hUNK : "UNK" ∉ words) (hvs : 1 ≤ vocab_size) :
    (AE.build_vocab words vocab_size).1.length
        = 1 + min (vocab_size - 1) words.dedup.length ∧
    (AE.build_vocab words vocab_size).2.length
        = 1 + min (vocab_size - 1) words.dedup.length ∧
    (AE.build_vocab words vocab_size).1.lookup "UNK" = some 0 ∧
    (AE.build_vocab words vocab_size).1.map Prod.snd
        = List.range (1 + min (vocab_size - 1) words.dedup.length) ∧
    (∀ w i, (AE.build_vocab words vocab_size).1.lookup w = some i →
      (AE.build_vocab words vocab_size).2.lookup i = some w) ∧
    (∀ i w, (AE.build_vocab words vocab_size).2.lookup i = some w →
      (AE.build_vocab words vocab_size).1.lookup w = some i) := by
  obtain ⟨hd, hrd⟩ := AE.build_vocab_struct words vocab_size hUNK
  have hmcl : (AE.most_common words (vocab_size - 1)).length
      = min (vocab_size - 1) words.dedup.length := AE.most_common_length words _
  have hn : 1 + min (vocab_size - 1) words.dedup.length
      = (AE.most_common words (vocab_size - 1)).length + 1 := by omega
  have hkeysnodup :
      ("UNK" :: (AE.most_common words (vocab_size - 1)).map Prod.fst).Nodup := by
    refine List.Nodup.cons ?_ (AE.most_common_keys_nodup words _)
    intro hm
    exact hUNK (AE.most_common_keys_mem hm)
  have hklen : ("UNK" :: (AE.most_common words (vocab_size - 1)).map Prod.fst).length
      = (AE.most_common words (vocab_size - 1)).length + 1 := by simp
  have hdkeys : (AE.build_vocab words vocab_size).1.map Prod.fst
      = "UNK" :: (AE.most_common words (vocab_size - 1)).map Prod.fst := by
    rw [hd]
    exact List.map_fst_zip _ _ (by simp)
  have hrdkeys : (AE.build_vocab words vocab_size).2.map Prod.fst
      = List.range' 0 ((AE.most_common words (vocab_size - 1)).length + 1) := by
    rw [hrd]
    exact List.map_fst_zip _ _ (by simp)
  have hdnodup : ((AE.build_vocab words vocab_size).1.map Prod.fst).Nodup :=
    hdkeys ▸ hkeysnodup
  have hrdnodup : ((AE.build_vocab words vocab_size).2.map Prod.fst).Nodup :=
    hrdkeys ▸ List.nodup_range' 0 _
  have hfwd : ∀ a c, (a, c) ∈ (AE.build_vocab words vocab_size).1 →
      (c, a) ∈ (AE.build_vocab words vocab_size).2 := by
    intro a c hmem
    rw [hd] at hmem
    rw [hrd]
    have h2 := List.mem_map_of_mem Prod.swap hmem
    rw [List.zip_swap] at h2
    simpa using h2
  have hbwd : ∀ c a, (c, a) ∈ (AE.build_vocab words vocab_size).2 →
      (a, c) ∈ (AE.build_vocab words vocab_size).1 := by
    intro c a hmem
    rw [hrd] at hmem
    rw [hd]
    have h2 := List.mem_map_of_mem Prod.swap hmem
    rw [List.zip_swap] at h2
    simpa using h2
  refine ⟨?_, ?_, ?_, ?_, ?_, ?_⟩
  · rw [hd, List.length_zip, hklen, List.length_range', Nat.min_self, hn]
  · rw [hrd, List.length_zip, hklen, List.length_range', Nat.min_self, hn]
  · rw [hd, List.range'_succ, List.zip_cons_cons]
    exact List.lookup_cons_self
  · rw [hd, List.map_snd_zip _ _ (by simp), hn, ← List.range_eq_range']
  · intro a c hlk
    exact AE.mem_lookup hrdnodup (hfwd a c (AE.lookup_mem hlk))
  · intro c a hlk
    exact AE.mem_lookup hdnodup (hbwd c a (AE.lookup_mem hlk))

/-- C10 witness: the theorem applied at the word list `["b", "a", "b"]` and
vocab_size 3: the dictionary has 3 entries and looking index 1 up in the
reverse dictionary returns the word that maps to 1. -/
theorem build_vocab_bijection_witness :
    (AE.build_vocab ["b", "a", "b"] 3).1.length = 3 ∧
    (AE.build_vocab ["b", "a", "b"] 3).2.lookup 1 = some "b" := by
  have h := build_vocab_bijection ["b", "a", "b"] 3 (by decide) (by decide)
  refine ⟨?_, h.2.2.2.2.1 "b" 1 (by decide)⟩
  rw [h.1]
  decide
